import Mathlib

/-!
Verification of the minigbm i915 backend and the cros_gralloc driver core.

The development shallowly embeds the two source files
`src/i915.c` and `src/cros_gralloc/cros_gralloc_driver.cc`:

* layout arithmetic (`i915_align_dimensions`, `i915_bo_from_format`, the
  CCS branch of `i915_bo_compute_metadata`) is embedded as pure functions
  on `Nat`, with 32-bit wrap-around made explicit through `u32`;
* the handle/buffer lifecycle manager (`retain`, `release`, `allocate`,
  `is_supported`, `create_reserved_region`) is embedded as explicit state
  passing over association lists that model the two `std::unordered_map`
  tables `buffers_` and `handles_`; kernel ioctl outcomes are supplied by
  small environment records;
* cache maintenance (`i915_clflush`, `i915_bo_flush`) is embedded as a
  function computing the list of cache-line addresses that get flushed.

The build modelled is the gralloc1 configuration of this repository
(USE_GRALLOC1), which is the configuration the specification describes.
-/

namespace Minigbm

/-! ## Machine arithmetic

The C sources compute strides, sizes and offsets in `uint32_t`.  `u32`
makes the wrap-around explicit; `ALIGN32` is the `ALIGN(x, a)` macro
`(((x) + (a) - 1) / (a)) * (a))` evaluated in `uint32_t`; `DIV_ROUND_UP`
is the mathematical ceiling used to state the claims. -/

def U32LIM : Nat := 4294967296

def u32 (n : Nat) : Nat := n % U32LIM

/-- The ALIGN macro from util.h, computed in uint32_t arithmetic. -/
def ALIGN32 (x a : Nat) : Nat := u32 (u32 (x + a - 1) / a * a)

/-- The DIV_ROUND_UP macro, as exact Nat arithmetic (used to state claims). -/
def DIV_ROUND_UP (n d : Nat) : Nat := (n + d - 1) / d

/-- Mask of a 64-bit word; `unset_flags(cur, mask)` in i915.c is
`cur & ~mask` on `uint64_t`, i.e. and-ing with the complement in 64 bits. -/
def U64MASK : Nat := 18446744073709551615

def unset_flags (current_flags mask : Nat) : Nat :=
  current_flags &&& (U64MASK ^^^ mask)

/-! ## Constants

DRM fourcc codes and use-flag bits.  `drv.h` and `i915_drm.h` are not part
of the two source files; the numeric values below are the canonical ones,
and the claims only depend on the constants being distinct single bits
(for the flags) and distinct codes (for the formats). -/

def DRM_FORMAT_NV12 : Nat := 0x3231564E
def DRM_FORMAT_XBGR8888 : Nat := 0x34324258
def DRM_FORMAT_R8 : Nat := 0x20203852
def DRM_FORMAT_YVU420_ANDROID : Nat := 0x37393939
def DRM_FORMAT_FLEX_IMPLEMENTATION_DEFINED : Nat := 0x38393939
def DRM_FORMAT_FLEX_YCbCr_420_888 : Nat := 0x39393939

def BO_USE_SCANOUT : Nat := 1
def BO_USE_CAMERA_WRITE : Nat := 64
def BO_USE_CAMERA_READ : Nat := 128

def I915_TILING_NONE : Nat := 0
def I915_TILING_X : Nat := 1
def I915_TILING_Y : Nat := 2

/-- POSIX errno values used by the driver, as positive constants; the
driver returns their negations. -/
def ENOMEM : Int := 12
def EFAULT : Int := 14
def EINVAL : Int := 22

/-! ## Association lists

The two driver tables `buffers_ : map<uint32_t, cros_gralloc_buffer*>`
and `handles_ : map<cros_gralloc_handle*, pair<buffer*, uint32>>` are
modelled as association lists with unique keys.  `alget` is lookup,
`alset` is `m[k] = v` (update in place, insert at the end when absent,
matching map/emplace semantics for unique keys), `alerase` is `erase`. -/

def alget {α : Type} : List (Nat × α) → Nat → Option α
  | [], _ => none
  | (k, v) :: t, k2 => if k2 = k then some v else alget t k2

def alset {α : Type} : List (Nat × α) → Nat → α → List (Nat × α)
  | [], k, v => [(k, v)]
  | (k2, v2) :: t, k, v => if k = k2 then (k, v) :: t else (k2, v2) :: alset t k v

def alerase {α : Type} : List (Nat × α) → Nat → List (Nat × α)
  | [], _ => []
  | (k2, v2) :: t, k => if k = k2 then t else (k2, v2) :: alerase t k

theorem alget_append_self {α : Type} {l : List (Nat × α)} {k : Nat} (v : α)
    (h : alget l k = none) : alget (l ++ [(k, v)]) k = some v := by
  induction l with
  | nil => simp [alget]
  | cons hd tl ih =>
    obtain ⟨k2, v2⟩ := hd
    by_cases hk : k = k2
    · simp [alget, hk] at h
    · simp only [alget, hk, if_neg] at h ⊢
      simp [List.cons_append, alget, hk]
      exact ih h

theorem alset_absent {α : Type} {l : List (Nat × α)} {k : Nat} (v : α)
    (h : alget l k = none) : alset l k v = l ++ [(k, v)] := by
  induction l with
  | nil => simp [alset]
  | cons hd tl ih =>
    obtain ⟨k2, v2⟩ := hd
    by_cases hk : k = k2
    · simp [alget, hk] at h
    · simp only [alget, hk, if_neg] at h
      simp [alset, hk, ih h]

theorem alset_append {α : Type} {l : List (Nat × α)} {k : Nat} (v w : α)
    (h : alget l k = none) : alset (l ++ [(k, v)]) k w = l ++ [(k, w)] := by
  induction l with
  | nil => simp [alset]
  | cons hd tl ih =>
    obtain ⟨k2, v2⟩ := hd
    by_cases hk : k = k2
    · simp [alget, hk] at h
    · simp only [alget, hk, if_neg] at h
      simp [List.cons_append, alset, hk, ih h]

theorem alerase_append {α : Type} {l : List (Nat × α)} {k : Nat} (v : α)
    (h : alget l k = none) : alerase (l ++ [(k, v)]) k = l := by
  induction l with
  | nil => simp [alerase]
  | cons hd tl ih =>
    obtain ⟨k2, v2⟩ := hd
    by_cases hk : k = k2
    · simp [alget, hk] at h
    · simp only [alget, hk, if_neg] at h
      simp [List.cons_append, alerase, hk, ih h]

theorem alget_alset_self {α : Type} (l : List (Nat × α)) (k : Nat) (v : α) :
    alget (alset l k v) k = some v := by
  induction l with
  | nil => simp [alset, alget]
  | cons hd tl ih =>
    obtain ⟨k2, v2⟩ := hd
    by_cases hk : k = k2
    · simp [alset, alget, hk]
    · simp [alset, alget, hk, ih]

theorem alset_present_length {α : Type} {l : List (Nat × α)} {k : Nat} {v : α}
    (w : α) (h : alget l k = some v) : (alset l k w).length = l.length := by
  induction l with
  | nil => simp [alget] at h
  | cons hd tl ih =>
    obtain ⟨k2, v2⟩ := hd
    by_cases hk : k = k2
    · simp [alset, hk]
    · simp only [alget, hk, if_neg] at h
      simp [alset, hk, ih h]

/-! ## Handle/reference lifecycle manager

State of one `cros_gralloc_driver`:

* `buffers` models `buffers_`, keyed by the buffer id (the GEM handle of
  plane 0); the value is the `cros_gralloc_buffer`'s reference count.
* `handles` models `handles_`, keyed by the handle value (pointer
  identity in the source); the value is the pair (id of the buffer the
  entry points to, local retain count), mirroring
  `pair<cros_gralloc_buffer*, uint32_t>`.

The `cros_gralloc_buffer` class itself is not under src/.

Modelled from the spec: `cros_gralloc_buffer` (declarations/ctor not under
src/) carries a reference count that is 1 on construction, is incremented
by `increase_refcount()`, and is decremented by `decrease_refcount()`
which returns the new count; spec section 3: a Buffer is destroyed
exactly when its reference count reaches zero, and section 4.5: allocate
creates a matching Buffer with refcount 1. -/

structure DriverState where
  buffers : List (Nat × Nat)
  handles : List (Nat × (Nat × Nat))
deriving DecidableEq

/-- Kernel/validation outcomes for one handle value, supplied by the
environment around `retain`:

* `valid`: whether `cros_gralloc_convert_handle(handle)` succeeds (the
  magic-number check; the helper is not under src/, its outcome is an
  environment input).
* `primeId`: `some id` when `drmPrimeFDToHandle` on `hnd->fds[0]`
  succeeds with GEM handle `id`; `none` on failure (errno in
  `primeErrno`).  The same kernel object imported again in this process
  yields the same GEM handle, so the id obtained from
  `drv_bo_get_plane_handle(bo, 0)` after `drv_bo_import` of the same fd
  is this same `id` (spec section 3: the stable id is derived from the
  kernel handle of the first plane and is the same for every import of
  the same underlying object).
* `importOk`: whether `drv_bo_import` succeeds. -/
structure HandleEnv where
  valid : Bool
  primeId : Option Nat
  primeErrno : Nat
  importOk : Bool
deriving DecidableEq

/-- cros_gralloc_driver::retain (cros_gralloc_driver.cc:370-428). -/
def retain (env : HandleEnv) (s : DriverState) (hk : Nat) : Int × DriverState :=
  if env.valid = false then (-EINVAL, s)
  else
    match alget s.handles hk with
    | some (bid, cnt) =>
      -- handles_[hnd].second++; buffer->increase_refcount();
      (0, ⟨alset s.buffers bid ((alget s.buffers bid).getD 0 + 1),
           alset s.handles hk (bid, cnt + 1)⟩)
    | none =>
      match env.primeId with
      | none => (-(Int.ofNat env.primeErrno), s)
      | some id =>
        match alget s.buffers id with
        | some rc =>
          -- buffer = buffers_[id]; buffer->increase_refcount();
          (0, ⟨alset s.buffers id (rc + 1), alset s.handles hk (id, 1)⟩)
        | none =>
          if env.importOk = false then (-EFAULT, s)
          else
            -- bo = drv_bo_import(...); buffer = new cros_gralloc_buffer(id, ...)
            (0, ⟨alset s.buffers id 1, alset s.handles hk (id, 1)⟩)

/-- cros_gralloc_driver::release (cros_gralloc_driver.cc:430-455). -/
def release (env : HandleEnv) (s : DriverState) (hk : Nat) : Int × DriverState :=
  if env.valid = false then (-EINVAL, s)
  else
    match alget s.handles hk with
    | none => (-EINVAL, s)
    | some (bid, cnt) =>
      let handles2 := if cnt - 1 = 0 then alerase s.handles hk
                      else alset s.handles hk (bid, cnt - 1)
      let rc2 := (alget s.buffers bid).getD 0 - 1
      let buffers2 := if rc2 = 0 then alerase s.buffers bid
                      else alset s.buffers bid rc2
      (0, ⟨buffers2, handles2⟩)

/-- N successive retain() calls on the same handle value. -/
def retainN (env : HandleEnv) (hk : Nat) : Nat → DriverState → DriverState
  | 0, s => s
  | n + 1, s => retainN env hk n (retain env s hk).2

/-- N successive release() calls on the same handle value. -/
def releaseN (env : HandleEnv) (hk : Nat) : Nat → DriverState → DriverState
  | 0, s => s
  | n + 1, s => releaseN env hk n (release env s hk).2

/-! ## i915 format resolver (i915.c:661-690)

The USE_GRALLOC1 hook `i915_private_resolve_format` (i915_private.c, not
under src/) handles only vendor-private HAL formats and declines all
formats appearing below, so the behaviour on the formats of interest is
the switch statement of `i915_resolve_format` itself. -/

def i915_resolve_format (format use_flags : Nat) : Nat :=
  if format = DRM_FORMAT_FLEX_IMPLEMENTATION_DEFINED then
    -- KBL camera subsystem requires NV12.
    if use_flags &&& (BO_USE_CAMERA_READ ||| BO_USE_CAMERA_WRITE) ≠ 0 then
      DRM_FORMAT_NV12
    else
      DRM_FORMAT_XBGR8888
  else if format = DRM_FORMAT_FLEX_YCbCr_420_888 then
    DRM_FORMAT_NV12
  else
    format

/-! ## i915 dimension alignment (i915.c:257-296)

`i915_align_dimensions(bo, tiling, &stride, &aligned_height)`: the switch
selects the alignment pair (the `default:` label shares the
`I915_TILING_NONE` case), the height is always aligned, and in the
USE_GRALLOC1 build the stride is aligned only when the format is not
DRM_FORMAT_R8. -/

def i915_align_dimensions (format tiling stride height : Nat) : Nat × Nat :=
  let horizontal_alignment : Nat :=
    if tiling = I915_TILING_X then 512
    else if tiling = I915_TILING_Y then 128
    else 64
  let vertical_alignment : Nat :=
    if tiling = I915_TILING_X then 8
    else if tiling = I915_TILING_Y then 32
    else 4
  let aligned_height := ALIGN32 height vertical_alignment
  let stride2 :=
    if format = DRM_FORMAT_R8 then stride
    else ALIGN32 stride horizontal_alignment
  (stride2, aligned_height)

/-! ## i915 per-plane layout (i915.c:352-380)

`i915_bo_from_format(bo, width, height, format)` iterates over the
planes of the format; the unaligned stride and plane height of each
plane come from `drv_stride_from_format` / `drv_height_from_format`
(helpers.c, not under src/), so the embedding takes the list of
per-plane (unaligned stride, unaligned height) pairs as input, together
with the page size returned by `getpagesize()`. -/

structure PlaneMeta where
  stride : Nat
  offset : Nat
  size : Nat
deriving DecidableEq

/-- The loop body of i915_bo_from_format: returns the per-plane metadata
together with the final value of the `offset` accumulator. -/
def i915_layout_aux (format tiling : Nat) :
    List (Nat × Nat) → Nat → List PlaneMeta × Nat
  | [], off => ([], off)
  | (w, h) :: rest, off =>
    let sh := i915_align_dimensions format tiling w h
    let sz := u32 (sh.1 * sh.2)
    let r := i915_layout_aux format tiling rest (u32 (off + sz))
    (⟨sh.1, off, sz⟩ :: r.1, r.2)

/-- i915_bo_from_format: per-plane metadata plus
`total_size = ALIGN(offset, pagesize)`. -/
def i915_bo_from_format (format tiling pagesize : Nat)
    (dims : List (Nat × Nat)) : List PlaneMeta × Nat :=
  let r := i915_layout_aux format tiling dims 0
  (r.1, ALIGN32 r.2 pagesize)

/-! ## i915 CCS layout (i915.c:432-472)

The `I915_FORMAT_MOD_Y_TILED_CCS` branch of `i915_bo_compute_metadata`.
The plane-0 stride comes from `drv_stride_from_format(format, width, 0)`
(helpers.c, not under src/) and is taken as an input. -/

structure CcsLayout where
  stride0 : Nat
  offset0 : Nat
  size0 : Nat
  stride1 : Nat
  offset1 : Nat
  size1 : Nat
  num_planes : Nat
  total_size : Nat
deriving DecidableEq

def i915_bo_compute_metadata_ccs (stride height : Nat) : CcsLayout :=
  let width_in_tiles := u32 (stride + 127) / 128
  let height_in_tiles := u32 (height + 31) / 32
  let size := u32 (width_in_tiles * height_in_tiles * 4096)
  let ccs_width_in_tiles := u32 (width_in_tiles + 31) / 32
  let ccs_height_in_tiles := u32 (height_in_tiles + 15) / 16
  let ccs_size := u32 (ccs_width_in_tiles * ccs_height_in_tiles * 4096)
  { stride0 := u32 (width_in_tiles * 128)
    offset0 := 0
    size0 := size
    stride1 := u32 (ccs_width_in_tiles * 128)
    offset1 := size
    size1 := ccs_size
    num_planes := 2
    total_size := u32 (size + ccs_size) }

/-! ## i915 cache flushing (i915.c:298-308, 652-659)

`i915_clflush(start, size)` issues an mfence and then flushes one cache
line every 64 bytes from `start & ~63` while the pointer is below
`start + size`.  The embedding returns the list of flushed line
addresses (the fence has no state visible here).  `start & ~63` is
`start / 64 * 64` on natural numbers. -/

def clflushLoop (p e : Nat) : List Nat :=
  if h : p < e then p :: clflushLoop (p + 64) e else []
termination_by e - p
decreasing_by omega

def i915_clflush (start size : Nat) : List Nat :=
  clflushLoop (start / 64 * 64) (start + size)

/-- i915_bo_flush: returns the status (always 0) and the list of cache
lines flushed.  `has_llc` is `i915->has_llc` from the device query;
`tiling` is `bo->meta.tiling`; `addr`/`length` are the vma fields. -/
def i915_bo_flush (has_llc : Bool) (tiling addr length : Nat) :
    Int × List Nat :=
  if has_llc = false ∧ tiling = I915_TILING_NONE then
    (0, i915_clflush addr length)
  else
    (0, [])

/-! ## i915 buffer object factory (i915.c:479-515)

`i915_bo_create_from_metadata`: `DRM_IOCTL_I915_GEM_CREATE`, then
`DRM_IOCTL_I915_GEM_SET_TILING`; when the latter fails the freshly
created object is closed with `DRM_IOCTL_GEM_CLOSE` before the error is
returned.  The embedding returns the status and the list of kernel
object handles created by the call that are still live when it
returns. -/

structure CreateEnv where
  gemCreate : Option Nat
  gemCreateErrno : Nat
  setTilingOk : Bool
  setTilingErrno : Nat
deriving DecidableEq

def i915_bo_create_from_metadata (env : CreateEnv) : Int × List Nat :=
  match env.gemCreate with
  | none => (-(Int.ofNat env.gemCreateErrno), [])
  | some hdl =>
    if env.setTilingOk then (0, [hdl])
    else (-(Int.ofNat env.setTilingErrno), [])

/-! ## Reserved region creation (cros_gralloc_driver.cc:195-212)

`create_reserved_region(buffer_name, reserved_region_size)`:
`memfd_create` then `ftruncate`.  The embedding returns the int the
function returns together with the list of file descriptors opened by
the call that are still open when it returns (on success the returned
fd is that descriptor and ownership passes to the caller; on the
ftruncate failure path the source returns `-errno` without closing the
descriptor). -/

structure ReservedEnv where
  memfd : Option Nat
  memfdErrno : Nat
  ftruncateOk : Bool
  ftruncateErrno : Nat
deriving DecidableEq

def create_reserved_region (env : ReservedEnv) : Int × List Nat :=
  match env.memfd with
  | none => (-(Int.ofNat env.memfdErrno), [])
  | some fd =>
    if env.ftruncateOk then (Int.ofNat fd, [fd])
    else (-(Int.ofNat env.ftruncateErrno), [fd])

/-! ## is_supported and allocate (cros_gralloc_driver.cc:175-193, 214-368) -/

/-- A buffer descriptor; only the fields the claims depend on are
carried (`drm_format`, `use_flags`, `reserved_region_size`). -/
structure GrallocDescriptor where
  drm_format : Nat
  use_flags : Nat
  reserved_region_size : Nat
deriving DecidableEq

/-- cros_gralloc_driver::is_supported.  `getCombo` is the external
format-combination registry `drv_get_combination`;
`drv_resolve_format` dispatches to `i915_resolve_format`.  The C++
method mutates `descriptor->use_flags` in place; the embedding returns
the updated descriptor, together with the number of registry queries
performed. -/
def is_supported (getCombo : Nat → Nat → Option Nat)
    (d : GrallocDescriptor) : Bool × GrallocDescriptor × Nat :=
  let resolved_format := i915_resolve_format d.drm_format d.use_flags
  match getCombo resolved_format d.use_flags with
  | some _ => (true, d, 1)
  | none =>
    if d.use_flags &&& BO_USE_SCANOUT ≠ 0 then
      let d2 : GrallocDescriptor :=
        { d with use_flags := unset_flags d.use_flags BO_USE_SCANOUT }
      ((getCombo resolved_format d2.use_flags).isSome, d2, 2)
    else
      (false, d, 1)

/-- Environment of one allocate() call: outcome of `drv_bo_create`
(`boCreated`), the value of `drv_num_buffers_per_bo(bo)`, the GEM handle
of plane 0 (`drv_bo_get_plane_handle(bo, 0).u32`, used as the new buffer
id), and the environment of `create_reserved_region`. -/
structure AllocEnv where
  boCreated : Bool
  numBuffers : Nat
  boId : Nat
  reservedEnv : ReservedEnv
deriving DecidableEq

/-- The handle built by allocate(); only the claim-relevant field is
carried: line 336 sets `hnd->use_flags = descriptor->use_flags`. -/
structure CrosHandle where
  use_flags : Nat
deriving DecidableEq

/-- cros_gralloc_driver::allocate.  Returns
(status, new driver state, whether `drv_bo_destroy` was called on the
created bo, the handle built).  The num-buffers check (lines 278-282)
runs directly after creation, before the reserved region is created and
before anything is registered in the tables; on success one Buffer with
refcount 1 and one handle entry with count 1 are registered. -/
def allocate (env : AllocEnv) (s : DriverState) (d : GrallocDescriptor)
    (hkey : Nat) : Int × DriverState × Bool × Option CrosHandle :=
  if env.boCreated = false then (-ENOMEM, s, false, none)
  else if env.numBuffers ≠ 1 then (-EINVAL, s, true, none)
  else if 0 < d.reserved_region_size ∧ (create_reserved_region env.reservedEnv).1 < 0 then
    ((create_reserved_region env.reservedEnv).1, s, true, none)
  else
    (0, ⟨alset s.buffers env.boId 1, alset s.handles hkey (env.boId, 1)⟩,
     false, some ⟨d.use_flags⟩)

/-! ## Arithmetic lemmas about u32 and ALIGN32 -/

theorem u32_eq_of_lt {n : Nat} (h : n < U32LIM) : u32 n = n :=
  Nat.mod_eq_of_lt h

theorem u32_le (n : Nat) : u32 n ≤ n := Nat.mod_le n U32LIM

theorem align32_le (x a : Nat) : ALIGN32 x a ≤ x + a - 1 := by
  unfold ALIGN32
  calc u32 (u32 (x + a - 1) / a * a) ≤ u32 (x + a - 1) / a * a := u32_le _
    _ ≤ u32 (x + a - 1) := Nat.div_mul_le_self _ _
    _ ≤ x + a - 1 := u32_le _

theorem align32_ge {x a : Nat} (ha : 1 ≤ a) (hx : x + a ≤ U32LIM) :
    x ≤ ALIGN32 x a := by
  unfold ALIGN32
  have hin : u32 (x + a - 1) = x + a - 1 := u32_eq_of_lt (by omega)
  rw [hin]
  have hdm := Nat.div_add_mod (x + a - 1) a
  have hmlt : (x + a - 1) % a < a := Nat.mod_lt _ (by omega)
  have hq : (x + a - 1) / a * a ≤ x + a - 1 := Nat.div_mul_le_self _ _
  rw [u32_eq_of_lt (by omega)]
  generalize hm : (x + a - 1) / a * a = m at *
  rw [Nat.mul_comm] at hdm
  omega

theorem align32_dvd (x a : Nat) (hdvd : a ∣ U32LIM) : a ∣ ALIGN32 x a := by
  unfold ALIGN32 u32
  exact (Nat.dvd_mod_iff hdvd).mpr (dvd_mul_left a _)

/-- Bounds for the aligned stride and height produced by
i915_align_dimensions when the unaligned inputs lie in [1, 8192]. -/
theorem i915_align_dimensions_bounds (format tiling : Nat) {s h : Nat}
    (hs1 : 1 ≤ s) (hs2 : s ≤ 8192) (hh1 : 1 ≤ h) (hh2 : h ≤ 8192) :
    1 ≤ (i915_align_dimensions format tiling s h).1 ∧
    (i915_align_dimensions format tiling s h).1 ≤ 8703 ∧
    1 ≤ (i915_align_dimensions format tiling s h).2 ∧
    (i915_align_dimensions format tiling s h).2 ≤ 8223 := by
  have hU : U32LIM = 4294967296 := rfl
  have hpair : i915_align_dimensions format tiling s h =
      ((if format = DRM_FORMAT_R8 then s
        else ALIGN32 s (if tiling = I915_TILING_X then 512
          else if tiling = I915_TILING_Y then 128 else 64)),
       ALIGN32 h (if tiling = I915_TILING_X then 8
          else if tiling = I915_TILING_Y then 32 else 4)) := rfl
  rw [hpair]
  set ha : Nat := if tiling = I915_TILING_X then 512
    else if tiling = I915_TILING_Y then 128 else 64 with hha
  set va : Nat := if tiling = I915_TILING_X then 8
    else if tiling = I915_TILING_Y then 32 else 4 with hva
  have hab : 1 ≤ ha ∧ ha ≤ 512 := by rw [hha]; split_ifs <;> omega
  have hvb : 1 ≤ va ∧ va ≤ 32 := by rw [hva]; split_ifs <;> omega
  refine ⟨?_, ?_, ?_, ?_⟩
  · by_cases hf : format = DRM_FORMAT_R8
    · simpa [hf] using hs1
    · simp only [hf, if_neg, if_false]
      exact le_trans hs1 (align32_ge (by omega) (by omega))
  · by_cases hf : format = DRM_FORMAT_R8
    · simp only [hf, if_pos]; omega
    · simp only [hf, if_neg, if_false]
      have := align32_le s ha; omega
  · exact le_trans hh1 (align32_ge (by omega) (by omega))
  · have := align32_le h va; omega

/-! ## Running sums

`runningSums l a` is the list of partial sums `a, a + l0, a + l0 + l1, ...`
(one entry per element of `l`); it characterises the offset accumulator
of i915_bo_from_format. -/

def runningSums : List Nat → Nat → List Nat
  | [], _ => []
  | x :: t, a => a :: runningSums t (a + x)

theorem runningSums_length (l : List Nat) (a : Nat) :
    (runningSums l a).length = l.length := by
  induction l generalizing a with
  | nil => rfl
  | cons x t ih => simp [runningSums, ih]

theorem runningSums_mem_ge (l : List Nat) (a : Nat) :
    ∀ x ∈ runningSums l a, a ≤ x := by
  induction l generalizing a with
  | nil => intro x hx; simp [runningSums] at hx
  | cons y t ih =>
    intro x hx
    simp only [runningSums, List.mem_cons] at hx
    rcases hx with rfl | hx
    · exact le_refl x
    · exact le_trans (Nat.le_add_right a y) (ih (a + y) x hx)

theorem runningSums_pairwise (l : List Nat) (a : Nat)
    (h : ∀ x ∈ l, 1 ≤ x) : (runningSums l a).Pairwise (· < ·) := by
  induction l generalizing a with
  | nil => exact List.Pairwise.nil
  | cons y t ih =>
    refine List.Pairwise.cons ?_ (ih (a + y) (fun x hx => h x (by simp [hx])))
    intro x hx
    have hy : 1 ≤ y := h y (by simp)
    have := runningSums_mem_ge t (a + y) x hx
    omega

theorem runningSums_get_add_le (l : List Nat) (a i : Nat) (hi : i < l.length)
    (hi2 : i < (runningSums l a).length) :
    (runningSums l a).get ⟨i, hi2⟩ + l.get ⟨i, hi⟩ ≤ a + l.sum := by
  induction l generalizing a i with
  | nil => simp at hi
  | cons y t ih =>
    cases i with
    | zero =>
      show a + y ≤ a + (y :: t).sum
      simp only [List.sum_cons]
      omega
    | succ j =>
      simp only [runningSums, List.get_cons_succ, List.sum_cons]
      have hj : j < t.length := by simpa using hi
      have hj2 : j < (runningSums t (a + y)).length := by
        simpa [runningSums] using hi2
      have := ih (a + y) j hj hj2
      omega

/-! ## clflush loop lemmas -/

theorem clflushLoop_eq (p e : Nat) :
    clflushLoop p e = if p < e then p :: clflushLoop (p + 64) e else [] := by
  rw [clflushLoop]
  split <;> rfl

/-- Every byte of [p, e) lies in one of the flushed cache lines. -/
theorem clflushLoop_covers :
    ∀ (n p e b : Nat), e - p ≤ n → p ≤ b → b < e →
    ∃ q, q ∈ clflushLoop p e ∧ q ≤ b ∧ b < q + 64 := by
  intro n
  induction n with
  | zero => intro p e b h1 h2 h3; omega
  | succ m ih =>
    intro p e b h1 h2 h3
    have hpe : p < e := by omega
    rw [clflushLoop_eq, if_pos hpe]
    by_cases hb : b < p + 64
    · exact ⟨p, by simp, h2, hb⟩
    · obtain ⟨q, hq1, hq2, hq3⟩ := ih (p + 64) e b (by omega) (by omega) h3
      exact ⟨q, by simp [hq1], hq2, hq3⟩

/-- Every flushed address is 64-byte aligned when the start is. -/
theorem clflushLoop_aligned :
    ∀ (n p e : Nat), e - p ≤ n → 64 ∣ p →
    ∀ q ∈ clflushLoop p e, 64 ∣ q := by
  intro n
  induction n with
  | zero =>
    intro p e h1 h2 q hq
    rw [clflushLoop_eq] at hq
    have : ¬ p < e := by omega
    simp [this] at hq
  | succ m ih =>
    intro p e h1 h2 q hq
    rw [clflushLoop_eq] at hq
    by_cases hpe : p < e
    · rw [if_pos hpe] at hq
      rcases List.mem_cons.mp hq with rfl | hq
      · exact h2
      · exact ih (p + 64) e (by omega) (Nat.dvd_add h2 (by norm_num)) q hq
    · simp [hpe] at hq

/-! ## Layout loop characterisation -/

theorem i915_layout_aux_cons (format tiling w h : Nat) (tl : List (Nat × Nat))
    (off : Nat) :
    i915_layout_aux format tiling ((w, h) :: tl) off =
      ((⟨(i915_align_dimensions format tiling w h).1, off,
          u32 ((i915_align_dimensions format tiling w h).1 *
               (i915_align_dimensions format tiling w h).2)⟩ : PlaneMeta) ::
        (i915_layout_aux format tiling tl
          (u32 (off + u32 ((i915_align_dimensions format tiling w h).1 *
                           (i915_align_dimensions format tiling w h).2)))).1,
       (i915_layout_aux format tiling tl
          (u32 (off + u32 ((i915_align_dimensions format tiling w h).1 *
                           (i915_align_dimensions format tiling w h).2)))).2) := rfl

/-- Characterisation of the i915_bo_from_format loop: when every
unaligned plane dimension lies in [1, 8192] and the running offset
cannot overflow (each aligned plane size is at most 2^27 = 134217728),
the loop produces one plane per input, every plane size lies in
[1, 2^27], the offsets are the running sums of the sizes, and the final
accumulator is the start offset plus the sum of sizes. -/
theorem i915_layout_aux_spec (format tiling : Nat) :
    ∀ (dims : List (Nat × Nat)) (off : Nat),
    (∀ p ∈ dims, 1 ≤ p.1 ∧ p.1 ≤ 8192 ∧ 1 ≤ p.2 ∧ p.2 ≤ 8192) →
    off + dims.length * 134217728 < U32LIM →
    (i915_layout_aux format tiling dims off).1.length = dims.length ∧
    (∀ q ∈ (i915_layout_aux format tiling dims off).1,
       1 ≤ q.size ∧ q.size ≤ 134217728) ∧
    (i915_layout_aux format tiling dims off).1.map PlaneMeta.offset =
      runningSums ((i915_layout_aux format tiling dims off).1.map PlaneMeta.size)
        off ∧
    (i915_layout_aux format tiling dims off).2 =
      off + ((i915_layout_aux format tiling dims off).1.map PlaneMeta.size).sum := by
  intro dims
  induction dims with
  | nil =>
    intro off h1 h2
    simp [i915_layout_aux, runningSums]
  | cons hd tl ih =>
    intro off h1 h2
    obtain ⟨w, h⟩ := hd
    have hwh := h1 (w, h) (by simp)
    have hb := i915_align_dimensions_bounds format tiling hwh.1 hwh.2.1
      hwh.2.2.1 hwh.2.2.2
    rw [i915_layout_aux_cons]
    set A := i915_align_dimensions format tiling w h with hA
    have hmul1 : 1 ≤ A.1 * A.2 := by
      have := Nat.mul_le_mul hb.1 hb.2.2.1
      simpa using this
    have hmul2 : A.1 * A.2 ≤ 134217728 := by
      calc A.1 * A.2 ≤ 8703 * 8223 := Nat.mul_le_mul hb.2.1 hb.2.2.2
        _ ≤ 134217728 := by norm_num
    have hU : U32LIM = 4294967296 := rfl
    have hlen : ((w, h) :: tl).length = tl.length + 1 := rfl
    rw [hlen] at h2
    have hsz : u32 (A.1 * A.2) = A.1 * A.2 := u32_eq_of_lt (by omega)
    rw [hsz]
    have hoff : u32 (off + A.1 * A.2) = off + A.1 * A.2 :=
      u32_eq_of_lt (by omega)
    rw [hoff]
    have ihr := ih (off + A.1 * A.2)
      (fun p hp => h1 p (List.mem_cons_of_mem _ hp)) (by omega)
    obtain ⟨ih1, ih2, ih3, ih4⟩ := ihr
    refine ⟨by simp [ih1], ?_, ?_, ?_⟩
    · intro q hq
      rcases List.mem_cons.mp hq with rfl | hq
      · exact ⟨hmul1, hmul2⟩
      · exact ih2 q hq
    · simp only [List.map_cons, runningSums]
      exact List.cons_eq_cons.mpr ⟨rfl, ih3⟩
    · simp only [List.map_cons, List.sum_cons]
      omega

theorem u32_eq_num {n : Nat} (h : n < 4294967296) : u32 n = n :=
  u32_eq_of_lt h

theorem i915_align_dimensions_eq (format tiling s h : Nat) :
    i915_align_dimensions format tiling s h =
      ((if format = DRM_FORMAT_R8 then s
        else ALIGN32 s (if tiling = I915_TILING_X then 512
          else if tiling = I915_TILING_Y then 128 else 64)),
       ALIGN32 h (if tiling = I915_TILING_X then 8
          else if tiling = I915_TILING_Y then 32 else 4)) := rfl

/-! ## Claim theorems -/

/-- C3: the claim asserts no failure path leaves a partially constructed
resource visible.  The tiling half holds: when `DRM_IOCTL_I915_GEM_SET_TILING`
fails, `i915_bo_create_from_metadata` closes the fresh GEM object before
returning the error (second conjunct: no created handle is live on
return).  The reserved-region half fails in the code:
`create_reserved_region` returns `-errno` after a failed `ftruncate`
without closing the memfd it just created, so the descriptor (fd 5
below) is still open although the caller only receives the error value
-28 — a leaked descriptor (first conjunct evaluates the code on that
failing input). -/
theorem C3_reserved_region_fd_leak :
    create_reserved_region ⟨some 5, 0, false, 28⟩ = (-28, [5]) ∧
    i915_bo_create_from_metadata ⟨some 9, 12, false, 22⟩ = (-22, []) := by
  exact ⟨by decide, by decide⟩

/-- C4: CCS sizing for the Y-tiled-with-compression modifier: with
`stride` the plane-0 stride and `height` the requested height, the main
surface is `ceil(stride/128) * ceil(height/32)` 4096-byte tiles at
offset 0, the control surface is
`ceil(tiles_x/32) * ceil(tiles_y/16) * 4096` bytes at offset equal to
the main-surface size, exactly two planes are produced, and the total
size is the sum of the two plane sizes. -/
theorem C4_ccs_sizing (stride height : Nat)
    (hs : stride ≤ 32768) (hh : height ≤ 32768) :
    (i915_bo_compute_metadata_ccs stride height).offset0 = 0 ∧
    (i915_bo_compute_metadata_ccs stride height).size0 =
      DIV_ROUND_UP stride 128 * DIV_ROUND_UP height 32 * 4096 ∧
    (i915_bo_compute_metadata_ccs stride height).offset1 =
      (i915_bo_compute_metadata_ccs stride height).size0 ∧
    (i915_bo_compute_metadata_ccs stride height).size1 =
      DIV_ROUND_UP (DIV_ROUND_UP stride 128) 32 *
        DIV_ROUND_UP (DIV_ROUND_UP height 32) 16 * 4096 ∧
    (i915_bo_compute_metadata_ccs stride height).num_planes = 2 ∧
    (i915_bo_compute_metadata_ccs stride height).total_size =
      (i915_bo_compute_metadata_ccs stride height).size0 +
        (i915_bo_compute_metadata_ccs stride height).size1 := by
  have ha : u32 (stride + 127) = stride + 127 := u32_eq_num (by omega)
  have hb : u32 (height + 31) = height + 31 := u32_eq_num (by omega)
  have hW : DIV_ROUND_UP stride 128 ≤ 257 := by unfold DIV_ROUND_UP; omega
  have hH : DIV_ROUND_UP height 32 ≤ 1025 := by unfold DIV_ROUND_UP; omega
  have hCW : DIV_ROUND_UP (DIV_ROUND_UP stride 128) 32 ≤ 9 := by
    unfold DIV_ROUND_UP; omega
  have hCH : DIV_ROUND_UP (DIV_ROUND_UP height 32) 16 ≤ 65 := by
    unfold DIV_ROUND_UP; omega
  have b0 : DIV_ROUND_UP stride 128 * DIV_ROUND_UP height 32 * 4096 ≤
      1078988800 :=
    le_trans (Nat.mul_le_mul (Nat.mul_le_mul hW hH) (le_refl 4096))
      (by norm_num)
  have b1 : DIV_ROUND_UP (DIV_ROUND_UP stride 128) 32 *
      DIV_ROUND_UP (DIV_ROUND_UP height 32) 16 * 4096 ≤ 2396160 :=
    le_trans (Nat.mul_le_mul (Nat.mul_le_mul hCW hCH) (le_refl 4096))
      (by norm_num)
  have b0raw : (stride + 127) / 128 * ((height + 31) / 32) * 4096 ≤
      1078988800 := b0
  have b1raw : ((stride + 127) / 128 + 31) / 32 *
      (((height + 31) / 32 + 15) / 16) * 4096 ≤ 2396160 := b1
  have hs0 : (i915_bo_compute_metadata_ccs stride height).size0 =
      DIV_ROUND_UP stride 128 * DIV_ROUND_UP height 32 * 4096 := by
    show u32 (u32 (stride + 127) / 128 * (u32 (height + 31) / 32) * 4096) = _
    rw [ha, hb]
    exact u32_eq_num (by omega)
  have hs1 : (i915_bo_compute_metadata_ccs stride height).size1 =
      DIV_ROUND_UP (DIV_ROUND_UP stride 128) 32 *
        DIV_ROUND_UP (DIV_ROUND_UP height 32) 16 * 4096 := by
    show u32 (u32 (u32 (stride + 127) / 128 + 31) / 32 *
      (u32 (u32 (height + 31) / 32 + 15) / 16) * 4096) = _
    rw [ha, hb]
    have hc : u32 ((stride + 127) / 128 + 31) = (stride + 127) / 128 + 31 :=
      u32_eq_num (by omega)
    have hd : u32 ((height + 31) / 32 + 15) = (height + 31) / 32 + 15 :=
      u32_eq_num (by omega)
    rw [hc, hd]
    exact u32_eq_num (by omega)
  refine ⟨rfl, hs0, rfl, hs1, rfl, ?_⟩
  have ht : (i915_bo_compute_metadata_ccs stride height).total_size =
      u32 ((i915_bo_compute_metadata_ccs stride height).size0 +
           (i915_bo_compute_metadata_ccs stride height).size1) := rfl
  rw [ht, hs0, hs1]
  exact u32_eq_num (by omega)

theorem C4_ccs_sizing_witness :
    (i915_bo_compute_metadata_ccs 1024 768).num_planes = 2 ∧
    (i915_bo_compute_metadata_ccs 1024 768).total_size =
      (i915_bo_compute_metadata_ccs 1024 768).size0 +
        (i915_bo_compute_metadata_ccs 1024 768).size1 :=
  ⟨(C4_ccs_sizing 1024 768 (by norm_num) (by norm_num)).2.2.2.2.1,
   (C4_ccs_sizing 1024 768 (by norm_num) (by norm_num)).2.2.2.2.2⟩

/-- C5: alignment law of i915_align_dimensions: the aligned height is a
multiple of the vertical alignment of the tiling mode (none: 4,
X-tiled: 8, Y-tiled: 32) and, except for DRM_FORMAT_R8, the aligned
stride is a multiple of the stride alignment (none: 64, X-tiled: 512,
Y-tiled: 128); for DRM_FORMAT_R8 the stride is returned unchanged. -/
theorem C5_alignment_law (format tiling stride height : Nat) :
    (tiling = I915_TILING_NONE →
       4 ∣ (i915_align_dimensions format tiling stride height).2 ∧
       (format ≠ DRM_FORMAT_R8 →
         64 ∣ (i915_align_dimensions format tiling stride height).1)) ∧
    (tiling = I915_TILING_X →
       8 ∣ (i915_align_dimensions format tiling stride height).2 ∧
       (format ≠ DRM_FORMAT_R8 →
         512 ∣ (i915_align_dimensions format tiling stride height).1)) ∧
    (tiling = I915_TILING_Y →
       32 ∣ (i915_align_dimensions format tiling stride height).2 ∧
       (format ≠ DRM_FORMAT_R8 →
         128 ∣ (i915_align_dimensions format tiling stride height).1)) ∧
    (format = DRM_FORMAT_R8 →
       (i915_align_dimensions format tiling stride height).1 = stride) := by
  rw [i915_align_dimensions_eq]
  refine ⟨?_, ?_, ?_, ?_⟩
  · intro ht
    subst ht
    constructor
    · simpa using align32_dvd height 4 ⟨1073741824, by norm_num [U32LIM]⟩
    · intro hf
      simpa [hf] using align32_dvd stride 64 ⟨67108864, by norm_num [U32LIM]⟩
  · intro ht
    subst ht
    constructor
    · simpa using align32_dvd height 8 ⟨536870912, by norm_num [U32LIM]⟩
    · intro hf
      simpa [hf] using align32_dvd stride 512 ⟨8388608, by norm_num [U32LIM]⟩
  · intro ht
    subst ht
    constructor
    · simpa using align32_dvd height 32 ⟨134217728, by norm_num [U32LIM]⟩
    · intro hf
      simpa [hf] using align32_dvd stride 128 ⟨33554432, by norm_num [U32LIM]⟩
  · intro hf
    simp [hf]

theorem C5_alignment_law_witness :
    32 ∣ (i915_align_dimensions 0 I915_TILING_Y 100 50).2 ∧
    128 ∣ (i915_align_dimensions 0 I915_TILING_Y 100 50).1 :=
  ⟨((C5_alignment_law 0 I915_TILING_Y 100 50).2.2.1 rfl).1,
   ((C5_alignment_law 0 I915_TILING_Y 100 50).2.2.1 rfl).2 (by decide)⟩

/-- C7 counterexample: resolving the flexible-YCbCr format with no
camera usage flag set yields DRM_FORMAT_NV12 (the two-plane YUV format),
not the fixed RGB fallback DRM_FORMAT_XBGR8888 that the claim requires
for camera-free resolution; so the claim, as stated, is false at this
input. -/
theorem C7_flex_ycbcr_counterexample :
    i915_resolve_format DRM_FORMAT_FLEX_YCbCr_420_888 0 = DRM_FORMAT_NV12 ∧
    (0 : Nat) &&& (BO_USE_CAMERA_READ ||| BO_USE_CAMERA_WRITE) = 0 ∧
    DRM_FORMAT_NV12 ≠ DRM_FORMAT_XBGR8888 := by
  exact ⟨by decide, by decide, by decide⟩

/-- C7 (amended): format resolution is a total function; the
implementation-defined flexible format resolves to NV12 when a camera
usage flag is set and to XBGR8888 otherwise; the flexible-YCbCr format
always resolves to NV12, regardless of the camera flags; every other
format is returned unchanged. -/
theorem C7_resolve_format_total (format use_flags : Nat) :
    (format = DRM_FORMAT_FLEX_IMPLEMENTATION_DEFINED →
       (use_flags &&& (BO_USE_CAMERA_READ ||| BO_USE_CAMERA_WRITE) ≠ 0 →
          i915_resolve_format format use_flags = DRM_FORMAT_NV12) ∧
       (use_flags &&& (BO_USE_CAMERA_READ ||| BO_USE_CAMERA_WRITE) = 0 →
          i915_resolve_format format use_flags = DRM_FORMAT_XBGR8888)) ∧
    (format = DRM_FORMAT_FLEX_YCbCr_420_888 →
       i915_resolve_format format use_flags = DRM_FORMAT_NV12) ∧
    (format ≠ DRM_FORMAT_FLEX_IMPLEMENTATION_DEFINED →
     format ≠ DRM_FORMAT_FLEX_YCbCr_420_888 →
       i915_resolve_format format use_flags = format) := by
  refine ⟨?_, ?_, ?_⟩
  · intro hf
    subst hf
    constructor
    · intro hu
      simp [i915_resolve_format, hu]
    · intro hu
      simp [i915_resolve_format, hu]
  · intro hf
    subst hf
    simp [i915_resolve_format, DRM_FORMAT_FLEX_YCbCr_420_888,
      DRM_FORMAT_FLEX_IMPLEMENTATION_DEFINED]
  · intro h1 h2
    simp [i915_resolve_format, h1, h2]

theorem C7_resolve_format_total_witness :
    i915_resolve_format DRM_FORMAT_NV12 5 = DRM_FORMAT_NV12 :=
  (C7_resolve_format_total DRM_FORMAT_NV12 5).2.2 (by decide) (by decide)

/-- C10: when the created buffer object is backed by more than one
distinct kernel buffer, allocate() destroys the object and returns
-EINVAL, leaving the buffer and handle tables untouched (no Buffer or
Handle is registered) and producing no handle. -/
theorem C10_multi_kernel_buffer_rejected (env : AllocEnv) (s : DriverState)
    (d : GrallocDescriptor) (hkey : Nat) (hc : env.boCreated = true)
    (hn : 2 ≤ env.numBuffers) :
    allocate env s d hkey = (-EINVAL, s, true, none) := by
  unfold allocate
  rw [hc]
  have h1 : env.numBuffers ≠ 1 := by omega
  simp [h1]

theorem C10_multi_kernel_buffer_rejected_witness :
    allocate ⟨true, 2, 9, ⟨some 4, 0, true, 0⟩⟩ ⟨[], []⟩ ⟨0, 0, 0⟩ 7 =
      (-EINVAL, ⟨[], []⟩, true, none) :=
  C10_multi_kernel_buffer_rejected ⟨true, 2, 9, ⟨some 4, 0, true, 0⟩⟩
    ⟨[], []⟩ ⟨0, 0, 0⟩ 7 rfl (by norm_num)

/-- C8 counterexample: on a platform without a shared last-level cache
(`has_llc = false`) but with a Y-tiled buffer, flush() performs no
cache-line flushing at all for the mapped range [4096, 4160): the flushed
line list is empty, so no flushed line covers byte 4096 — contradicting
the claim that on such a platform flush() flushes every cache line
covering the mapped range. -/
theorem C8_no_llc_tiled_counterexample :
    i915_bo_flush false I915_TILING_Y 4096 64 = (0, []) ∧
    ¬ ∃ q, q ∈ (i915_bo_flush false I915_TILING_Y 4096 64).2 ∧
        q ≤ 4096 ∧ 4096 < q + 64 := by
  refine ⟨by decide, ?_⟩
  rintro ⟨q, hq, -, -⟩
  have he : (i915_bo_flush false I915_TILING_Y 4096 64).2 = ([] : List Nat) :=
    by decide
  rw [he] at hq
  exact List.not_mem_nil q hq

/-- C8 (amended): flush() always returns success; it performs per-line
cache flushing exactly when the platform lacks a shared last-level cache
AND the buffer is untiled, in which case the flushed lines start at the
cache-line-aligned address at or below the mapping start, are all
64-byte aligned, and cover every byte of the mapped range; with a
shared cache, or for tiled buffers, no line is flushed. -/
theorem C8_flush_behavior (has_llc : Bool) (tiling addr len : Nat) :
    (i915_bo_flush has_llc tiling addr len).1 = 0 ∧
    (has_llc = false → tiling = I915_TILING_NONE →
       (i915_bo_flush has_llc tiling addr len).2 = i915_clflush addr len ∧
       (∀ b, addr ≤ b → b < addr + len →
          ∃ q, q ∈ i915_clflush addr len ∧ q ≤ b ∧ b < q + 64) ∧
       (∀ q ∈ i915_clflush addr len, 64 ∣ q) ∧
       addr / 64 * 64 ≤ addr ∧
       (0 < len → (i915_clflush addr len).head? = some (addr / 64 * 64))) ∧
    (has_llc = true ∨ tiling ≠ I915_TILING_NONE →
       (i915_bo_flush has_llc tiling addr len).2 = []) := by
  refine ⟨?_, ?_, ?_⟩
  · unfold i915_bo_flush
    split <;> rfl
  · intro h1 h2
    have hstart : addr / 64 * 64 ≤ addr := Nat.div_mul_le_self addr 64
    refine ⟨by simp [i915_bo_flush, h1, h2], ?_, ?_, hstart, ?_⟩
    · intro b hb1 hb2
      exact clflushLoop_covers (addr + len - addr / 64 * 64) (addr / 64 * 64)
        (addr + len) b (le_refl _) (le_trans hstart hb1) hb2
    · intro q hq
      exact clflushLoop_aligned (addr + len - addr / 64 * 64) (addr / 64 * 64)
        (addr + len) (le_refl _) (dvd_mul_left 64 (addr / 64)) q hq
    · intro hlen
      unfold i915_clflush
      rw [clflushLoop_eq, if_pos (by omega)]
      rfl
  · intro h
    unfold i915_bo_flush
    rw [if_neg]
    rcases h with h | h
    · rintro ⟨ha, -⟩
      rw [h] at ha
      exact absurd ha (by simp)
    · rintro ⟨-, hb⟩
      exact h hb

theorem C8_flush_behavior_witness :
    (i915_bo_flush false I915_TILING_NONE 100 10).1 = 0 ∧
    (i915_bo_flush false I915_TILING_NONE 100 10).2 = i915_clflush 100 10 :=
  ⟨(C8_flush_behavior false I915_TILING_NONE 100 10).1,
   ((C8_flush_behavior false I915_TILING_NONE 100 10).2.1 rfl rfl).1⟩

/-- C9: when the registry rejects (resolved format, use_flags) and the
scanout flag is set, is_supported drops BO_USE_SCANOUT from the
descriptor's use_flags and queries the registry exactly once more
(query count 2), reporting supported when the scanout-free combination
exists; the handle allocate() then builds from that descriptor carries
the scanout-free use_flags (line 336 copies descriptor->use_flags). -/
theorem C9_scanout_fallback (getCombo : Nat → Nat → Option Nat)
    (d : GrallocDescriptor) (env : AllocEnv) (s : DriverState) (hkey : Nat)
    (h1 : getCombo (i915_resolve_format d.drm_format d.use_flags)
            d.use_flags = none)
    (h2 : d.use_flags &&& BO_USE_SCANOUT ≠ 0)
    (h3 : (getCombo (i915_resolve_format d.drm_format d.use_flags)
            (unset_flags d.use_flags BO_USE_SCANOUT)).isSome = true)
    (hc : env.boCreated = true) (hn : env.numBuffers = 1)
    (hr : d.reserved_region_size = 0) :
    is_supported getCombo d =
      (true, { d with use_flags := unset_flags d.use_flags BO_USE_SCANOUT },
       2) ∧
    unset_flags d.use_flags BO_USE_SCANOUT &&& BO_USE_SCANOUT = 0 ∧
    (allocate env s
        { d with use_flags := unset_flags d.use_flags BO_USE_SCANOUT }
        hkey).2.2.2 =
      some ⟨unset_flags d.use_flags BO_USE_SCANOUT⟩ := by
  refine ⟨?_, ?_, ?_⟩
  · simp only [is_supported, h1, h2, if_true, if_pos, ne_eq,
      not_false_eq_true]
    simp [h3]
  · unfold unset_flags
    rw [Nat.and_assoc]
    have hz : (U64MASK ^^^ BO_USE_SCANOUT) &&& BO_USE_SCANOUT = 0 := by decide
    rw [hz, Nat.and_zero]
  · unfold allocate
    rw [hc]
    simp [hn, hr]

theorem C9_scanout_fallback_witness :
    is_supported (fun _ u => if u = 0 then some 0 else none)
        ⟨DRM_FORMAT_XBGR8888, 1, 0⟩ =
      (true, ⟨DRM_FORMAT_XBGR8888, unset_flags 1 1, 0⟩, 2) ∧
    unset_flags 1 1 &&& BO_USE_SCANOUT = 0 :=
  ⟨(C9_scanout_fallback (fun _ u => if u = 0 then some 0 else none)
      ⟨DRM_FORMAT_XBGR8888, 1, 0⟩ ⟨true, 1, 9, ⟨some 4, 0, true, 0⟩⟩
      ⟨[], []⟩ 0 (by decide) (by decide) (by decide) rfl rfl rfl).1,
   (C9_scanout_fallback (fun _ u => if u = 0 then some 0 else none)
      ⟨DRM_FORMAT_XBGR8888, 1, 0⟩ ⟨true, 1, 9, ⟨some 4, 0, true, 0⟩⟩
      ⟨[], []⟩ 0 (by decide) (by decide) (by decide) rfl rfl rfl).2.1⟩

/-! ## Branch lemmas for retain and release -/

theorem retain_registered (env : HandleEnv) (s : DriverState) (hk bid cnt : Nat)
    (hv : env.valid = true) (hreg : alget s.handles hk = some (bid, cnt)) :
    retain env s hk =
      (0, ⟨alset s.buffers bid ((alget s.buffers bid).getD 0 + 1),
           alset s.handles hk (bid, cnt + 1)⟩) := by
  simp [retain, hv, hreg]

theorem retain_attach (env : HandleEnv) (s : DriverState) (hk id rc : Nat)
    (hv : env.valid = true) (hh : alget s.handles hk = none)
    (hp : env.primeId = some id) (hb : alget s.buffers id = some rc) :
    retain env s hk =
      (0, ⟨alset s.buffers id (rc + 1), alset s.handles hk (id, 1)⟩) := by
  simp [retain, hv, hh, hp, hb]

theorem retain_import (env : HandleEnv) (s : DriverState) (hk id : Nat)
    (hv : env.valid = true) (hh : alget s.handles hk = none)
    (hp : env.primeId = some id) (hb : alget s.buffers id = none)
    (hi : env.importOk = true) :
    retain env s hk =
      (0, ⟨alset s.buffers id 1, alset s.handles hk (id, 1)⟩) := by
  simp [retain, hv, hh, hp, hb, hi]

theorem release_unknown (env : HandleEnv) (s : DriverState) (hk : Nat)
    (hv : env.valid = true) (hh : alget s.handles hk = none) :
    release env s hk = (-EINVAL, s) := by
  simp [release, hv, hh]

theorem release_known (env : HandleEnv) (s : DriverState) (hk bid cnt : Nat)
    (hv : env.valid = true) (hreg : alget s.handles hk = some (bid, cnt)) :
    release env s hk =
      (0, ⟨if (alget s.buffers bid).getD 0 - 1 = 0 then alerase s.buffers bid
           else alset s.buffers bid ((alget s.buffers bid).getD 0 - 1),
           if cnt - 1 = 0 then alerase s.handles hk
           else alset s.handles hk (bid, cnt - 1)⟩) := by
  simp [release, hv, hreg]

/-! ## The retain/release loop invariant for one imported handle -/

theorem retainN_loop (env : HandleEnv) (s : DriverState) (hk id : Nat)
    (hv : env.valid = true) (hh : alget s.handles hk = none)
    (hb : alget s.buffers id = none) :
    ∀ (k j : Nat),
      retainN env hk k
          ⟨s.buffers ++ [(id, j)], s.handles ++ [(hk, (id, j))]⟩ =
        ⟨s.buffers ++ [(id, j + k)], s.handles ++ [(hk, (id, j + k))]⟩ := by
  intro k
  induction k with
  | zero => intro j; rfl
  | succ m ih =>
    intro j
    have hreg : alget (s.handles ++ [(hk, (id, j))]) hk = some (id, j) :=
      alget_append_self _ hh
    have hstep :
        retain env ⟨s.buffers ++ [(id, j)], s.handles ++ [(hk, (id, j))]⟩ hk =
          (0, ⟨s.buffers ++ [(id, j + 1)],
               s.handles ++ [(hk, (id, j + 1))]⟩) := by
      rw [retain_registered env _ hk id j hv hreg]
      show (0, (⟨alset (s.buffers ++ [(id, j)]) id
          ((alget (s.buffers ++ [(id, j)]) id).getD 0 + 1),
          alset (s.handles ++ [(hk, (id, j))]) hk (id, j + 1)⟩ :
          DriverState)) = _
      rw [alget_append_self j hb]
      simp only [Option.getD_some]
      rw [alset_append j (j + 1) hb, alset_append (id, j) (id, j + 1) hh]
    show retainN env hk m
        (retain env ⟨s.buffers ++ [(id, j)],
          s.handles ++ [(hk, (id, j))]⟩ hk).2 = _
    rw [hstep]
    show retainN env hk m
        ⟨s.buffers ++ [(id, j + 1)], s.handles ++ [(hk, (id, j + 1))]⟩ = _
    rw [ih (j + 1)]
    have he : j + 1 + m = j + (m + 1) := by omega
    rw [he]

theorem retainN_from_fresh (env : HandleEnv) (s : DriverState) (hk id : Nat)
    (hv : env.valid = true) (hh : alget s.handles hk = none)
    (hp : env.primeId = some id) (hb : alget s.buffers id = none)
    (hi : env.importOk = true) (N : Nat) (hN : 1 ≤ N) :
    retainN env hk N s =
      ⟨s.buffers ++ [(id, N)], s.handles ++ [(hk, (id, N))]⟩ := by
  obtain ⟨M, rfl⟩ : ∃ M, N = M + 1 := ⟨N - 1, by omega⟩
  show retainN env hk M (retain env s hk).2 = _
  rw [retain_import env s hk id hv hh hp hb hi]
  show retainN env hk M ⟨alset s.buffers id 1, alset s.handles hk (id, 1)⟩ = _
  rw [alset_absent 1 hb, alset_absent (id, 1) hh, retainN_loop env s hk id hv hh hb M 1]
  have he : 1 + M = M + 1 := by omega
  rw [he]

theorem release_state_step (env : HandleEnv) (s : DriverState) (hk id : Nat)
    (hv : env.valid = true) (hh : alget s.handles hk = none)
    (hb : alget s.buffers id = none) (j : Nat) (hj : 2 ≤ j) :
    release env ⟨s.buffers ++ [(id, j)], s.handles ++ [(hk, (id, j))]⟩ hk =
      (0, ⟨s.buffers ++ [(id, j - 1)], s.handles ++ [(hk, (id, j - 1))]⟩) := by
  have hreg : alget (s.handles ++ [(hk, (id, j))]) hk = some (id, j) :=
    alget_append_self _ hh
  rw [release_known env _ hk id j hv hreg]
  show (0, (⟨if (alget (s.buffers ++ [(id, j)]) id).getD 0 - 1 = 0 then
        alerase (s.buffers ++ [(id, j)]) id
      else alset (s.buffers ++ [(id, j)]) id
        ((alget (s.buffers ++ [(id, j)]) id).getD 0 - 1),
      if j - 1 = 0 then alerase (s.handles ++ [(hk, (id, j))]) hk
      else alset (s.handles ++ [(hk, (id, j))]) hk (id, j - 1)⟩ :
      DriverState)) = _
  rw [alget_append_self j hb]
  simp only [Option.getD_some]
  rw [if_neg (by omega), if_neg (by omega)]
  rw [alset_append j (j - 1) hb, alset_append (id, j) (id, j - 1) hh]

theorem release_state_one (env : HandleEnv) (s : DriverState) (hk id : Nat)
    (hv : env.valid = true) (hh : alget s.handles hk = none)
    (hb : alget s.buffers id = none) :
    release env ⟨s.buffers ++ [(id, 1)], s.handles ++ [(hk, (id, 1))]⟩ hk =
      (0, s) := by
  have hreg : alget (s.handles ++ [(hk, (id, 1))]) hk = some (id, 1) :=
    alget_append_self _ hh
  rw [release_known env _ hk id 1 hv hreg]
  show (0, (⟨if (alget (s.buffers ++ [(id, 1)]) id).getD 0 - 1 = 0 then
        alerase (s.buffers ++ [(id, 1)]) id
      else alset (s.buffers ++ [(id, 1)]) id
        ((alget (s.buffers ++ [(id, 1)]) id).getD 0 - 1),
      if 1 - 1 = 0 then alerase (s.handles ++ [(hk, (id, 1))]) hk
      else alset (s.handles ++ [(hk, (id, 1))]) hk (id, 1 - 1)⟩ :
      DriverState)) = _
  rw [alget_append_self 1 hb]
  simp only [Option.getD_some, Nat.sub_self, if_true, if_pos]
  rw [alerase_append 1 hb, alerase_append (id, 1) hh]

theorem releaseN_loop (env : HandleEnv) (s : DriverState) (hk id : Nat)
    (hv : env.valid = true) (hh : alget s.handles hk = none)
    (hb : alget s.buffers id = none) :
    ∀ (j : Nat), 1 ≤ j →
      releaseN env hk j
          ⟨s.buffers ++ [(id, j)], s.handles ++ [(hk, (id, j))]⟩ = s := by
  intro j
  induction j with
  | zero => omega
  | succ m ih =>
    intro _
    by_cases hm : m = 0
    · subst hm
      show releaseN env hk 0
          (release env ⟨s.buffers ++ [(id, 1)],
            s.handles ++ [(hk, (id, 1))]⟩ hk).2 = s
      rw [release_state_one env s hk id hv hh hb]
      rfl
    · show releaseN env hk m
          (release env ⟨s.buffers ++ [(id, m + 1)],
            s.handles ++ [(hk, (id, m + 1))]⟩ hk).2 = s
      rw [release_state_step env s hk id hv hh hb (m + 1) (by omega)]
      show releaseN env hk m
          ⟨s.buffers ++ [(id, m + 1 - 1)],
           s.handles ++ [(hk, (id, m + 1 - 1))]⟩ = s
      have he : m + 1 - 1 = m := rfl
      rw [he]
      exact ih (by omega)

/-- C1: refcount symmetry for a handle whose registration happens
through retain() (the cross-process import flow): starting from a state
where the handle value is unregistered and its kernel object has no
in-process Buffer, N retains followed by N releases removes the
handle-table entry and destroys the Buffer (both lookups are `none`
again, the whole state returns to its initial value — zero live
references), and one further release() on the fully released handle
returns -EINVAL without changing the state.  After the N retains the
handle entry carries count N and the Buffer refcount is N. -/
theorem C1_refcount_symmetry (env : HandleEnv) (s : DriverState)
    (hk id N : Nat) (hv : env.valid = true) (hp : env.primeId = some id)
    (hi : env.importOk = true) (hh : alget s.handles hk = none)
    (hb : alget s.buffers id = none) (hN : 1 ≤ N) :
    alget (retainN env hk N s).handles hk = some (id, N) ∧
    alget (retainN env hk N s).buffers id = some N ∧
    releaseN env hk N (retainN env hk N s) = s ∧
    alget (releaseN env hk N (retainN env hk N s)).handles hk = none ∧
    alget (releaseN env hk N (retainN env hk N s)).buffers id = none ∧
    release env (releaseN env hk N (retainN env hk N s)) hk =
      (-EINVAL, releaseN env hk N (retainN env hk N s)) := by
  have hr := retainN_from_fresh env s hk id hv hh hp hb hi N hN
  have hrel : releaseN env hk N (retainN env hk N s) = s := by
    rw [hr]
    exact releaseN_loop env s hk id hv hh hb N hN
  refine ⟨?_, ?_, hrel, ?_, ?_, ?_⟩
  · rw [hr]
    exact alget_append_self _ hh
  · rw [hr]
    exact alget_append_self _ hb
  · rw [hrel]
    exact hh
  · rw [hrel]
    exact hb
  · rw [hrel]
    exact release_unknown env s hk hv hh

theorem C1_refcount_symmetry_witness :
    releaseN ⟨true, some 3, 7, true⟩ 5 2
        (retainN ⟨true, some 3, 7, true⟩ 5 2 ⟨[], []⟩) = ⟨[], []⟩ ∧
    release ⟨true, some 3, 7, true⟩
        (releaseN ⟨true, some 3, 7, true⟩ 5 2
          (retainN ⟨true, some 3, 7, true⟩ 5 2 ⟨[], []⟩)) 5 =
      (-EINVAL, releaseN ⟨true, some 3, 7, true⟩ 5 2
          (retainN ⟨true, some 3, 7, true⟩ 5 2 ⟨[], []⟩)) :=
  ⟨(C1_refcount_symmetry ⟨true, some 3, 7, true⟩ ⟨[], []⟩ 5 3 2 rfl rfl rfl
      rfl rfl (by norm_num)).2.2.1,
   (C1_refcount_symmetry ⟨true, some 3, 7, true⟩ ⟨[], []⟩ 5 3 2 rfl rfl rfl
      rfl rfl (by norm_num)).2.2.2.2.2⟩

/-- C2: at most one Buffer per distinct kernel object: when retain()
sees an unregistered handle value it translates the primary plane fd to
the kernel object id; if a Buffer with that id is already registered,
the new handle-table entry is attached to it and its refcount is
incremented — the buffer table keeps the same number of entries and the
entry for `id` now carries rc + 1 (no second Buffer is created); only
when no Buffer with that id exists is a fresh Buffer imported and
registered under that id with refcount 1. -/
theorem C2_single_buffer_per_kernel_object (env : HandleEnv)
    (s : DriverState) (hk id : Nat) (hv : env.valid = true)
    (hp : env.primeId = some id) (hh : alget s.handles hk = none) :
    (∀ rc, alget s.buffers id = some rc →
       retain env s hk =
         (0, ⟨alset s.buffers id (rc + 1), alset s.handles hk (id, 1)⟩) ∧
       (alset s.buffers id (rc + 1)).length = s.buffers.length ∧
       alget (alset s.buffers id (rc + 1)) id = some (rc + 1)) ∧
    (alget s.buffers id = none → env.importOk = true →
       retain env s hk =
         (0, ⟨alset s.buffers id 1, alset s.handles hk (id, 1)⟩) ∧
       alget (alset s.buffers id 1) id = some 1) := by
  constructor
  · intro rc hrc
    exact ⟨retain_attach env s hk id rc hv hh hp hrc,
           alset_present_length _ hrc, alget_alset_self _ _ _⟩
  · intro hbn hi
    exact ⟨retain_import env s hk id hv hh hp hbn hi,
           alget_alset_self _ _ _⟩

theorem C2_single_buffer_per_kernel_object_witness :
    retain ⟨true, some 3, 0, true⟩ ⟨[(3, 1)], []⟩ 5 =
      (0, ⟨[(3, 2)], [(5, (3, 1))]⟩) :=
  ((C2_single_buffer_per_kernel_object ⟨true, some 3, 0, true⟩
      ⟨[(3, 1)], []⟩ 5 3 rfl rfl rfl).1 1 rfl).1

theorem sum_le_length_mul (l : List Nat) (B : Nat) (h : ∀ x ∈ l, x ≤ B) :
    l.sum ≤ l.length * B := by
  induction l with
  | nil => simp
  | cons x t ih =>
    simp only [List.sum_cons, List.length_cons]
    have hx : x ≤ B := h x (by simp)
    have ht : t.sum ≤ t.length * B := ih (fun y hy => h y (by simp [hy]))
    calc x + t.sum ≤ B + t.length * B := by omega
      _ = (t.length + 1) * B := by ring

/-- C6: plane-layout invariant of the general per-plane path
(i915_bo_from_format): for every plane, offset + size is at most the
total size; the plane offsets are the running sums of the preceding
plane sizes (in particular strictly increasing in plane order); and the
grand total is the sum of the plane sizes rounded up to the system page
size.  The per-plane unaligned dimensions are bounded (at most 8192,
DRV_MAX_PLANES = 4 planes) so that the uint32 arithmetic does not
wrap. -/
theorem C6_plane_layout_invariant (format tiling pagesize : Nat)
    (dims : List (Nat × Nat)) (hlen : dims.length ≤ 4)
    (hdims : ∀ p ∈ dims, 1 ≤ p.1 ∧ p.1 ≤ 8192 ∧ 1 ≤ p.2 ∧ p.2 ≤ 8192)
    (hps1 : 1 ≤ pagesize) (hps2 : pagesize ≤ 65536) :
    (∀ i (hi : i < (i915_bo_from_format format tiling pagesize dims).1.length),
       ((i915_bo_from_format format tiling pagesize dims).1.get ⟨i, hi⟩).offset +
         ((i915_bo_from_format format tiling pagesize dims).1.get ⟨i, hi⟩).size ≤
         (i915_bo_from_format format tiling pagesize dims).2) ∧
    ((i915_bo_from_format format tiling pagesize dims).1.map
        PlaneMeta.offset).Pairwise (· < ·) ∧
    (i915_bo_from_format format tiling pagesize dims).1.map PlaneMeta.offset =
      runningSums ((i915_bo_from_format format tiling pagesize dims).1.map
        PlaneMeta.size) 0 ∧
    (i915_bo_from_format format tiling pagesize dims).2 =
      ALIGN32 (((i915_bo_from_format format tiling pagesize dims).1.map
        PlaneMeta.size).sum) pagesize := by
  have hU : U32LIM = 4294967296 := rfl
  have hoff0 : 0 + dims.length * 134217728 < U32LIM := by
    rw [hU]; omega
  obtain ⟨hlen2, hsz, hoffs, hfin⟩ :=
    i915_layout_aux_spec format tiling dims 0 hdims hoff0
  have hff : i915_bo_from_format format tiling pagesize dims =
      ((i915_layout_aux format tiling dims 0).1,
       ALIGN32 (i915_layout_aux format tiling dims 0).2 pagesize) := rfl
  rw [hff]
  have hsum : ((i915_layout_aux format tiling dims 0).1.map
      PlaneMeta.size).sum ≤ 536870912 := by
    have hb := sum_le_length_mul
      ((i915_layout_aux format tiling dims 0).1.map PlaneMeta.size)
      134217728
      (by
        intro x hx
        obtain ⟨q, hq, rfl⟩ := List.mem_map.mp hx
        exact (hsz q hq).2)
    have hlm : ((i915_layout_aux format tiling dims 0).1.map
        PlaneMeta.size).length = dims.length := by simp [hlen2]
    rw [hlm] at hb
    have : dims.length * 134217728 ≤ 4 * 134217728 :=
      Nat.mul_le_mul_right _ hlen
    omega
  have hr2sum : (i915_layout_aux format tiling dims 0).2 =
      ((i915_layout_aux format tiling dims 0).1.map PlaneMeta.size).sum := by
    rw [hfin]; omega
  refine ⟨?_, ?_, hoffs, by rw [hr2sum]⟩
  · intro i hi
    have hi2 : i < ((i915_layout_aux format tiling dims 0).1.map
        PlaneMeta.size).length := by simpa using hi
    have hi3 : i < ((i915_layout_aux format tiling dims 0).1.map
        PlaneMeta.offset).length := by simpa using hi
    have hi4 : i < (runningSums ((i915_layout_aux format tiling dims 0).1.map
        PlaneMeta.size) 0).length := by
      rw [runningSums_length]; exact hi2
    have hgo : ((i915_layout_aux format tiling dims 0).1.get ⟨i, hi⟩).offset =
        ((i915_layout_aux format tiling dims 0).1.map
          PlaneMeta.offset).get ⟨i, hi3⟩ := by
      simp [List.getElem_map]
    have hgs : ((i915_layout_aux format tiling dims 0).1.get ⟨i, hi⟩).size =
        ((i915_layout_aux format tiling dims 0).1.map
          PlaneMeta.size).get ⟨i, hi2⟩ := by
      simp [List.getElem_map]
    have hgo2 : ((i915_layout_aux format tiling dims 0).1.map
        PlaneMeta.offset).get ⟨i, hi3⟩ =
        (runningSums ((i915_layout_aux format tiling dims 0).1.map
          PlaneMeta.size) 0).get ⟨i, hi4⟩ := by
      exact List.get_of_eq hoffs ⟨i, hi3⟩
    have hle := runningSums_get_add_le
      ((i915_layout_aux format tiling dims 0).1.map PlaneMeta.size) 0 i hi2 hi4
    have htot : (i915_layout_aux format tiling dims 0).2 ≤
        ALIGN32 (i915_layout_aux format tiling dims 0).2 pagesize := by
      apply align32_ge hps1
      rw [hU, hr2sum]
      omega
    rw [hgo, hgs, hgo2]
    have hpair2 : ((i915_layout_aux format tiling dims 0).1,
        ALIGN32 (i915_layout_aux format tiling dims 0).2 pagesize).2 =
        ALIGN32 ((i915_layout_aux format tiling dims 0).2) pagesize := rfl
    rw [hpair2, hr2sum]
    rw [hr2sum] at htot
    omega
  · rw [hoffs]
    apply runningSums_pairwise
    intro x hx
    obtain ⟨q, hq, rfl⟩ := List.mem_map.mp hx
    exact (hsz q hq).1

theorem C6_plane_layout_invariant_witness :
    (i915_bo_from_format 0 0 4096 [(100, 60), (50, 30)]).1.map
        PlaneMeta.offset =
      runningSums ((i915_bo_from_format 0 0 4096
        [(100, 60), (50, 30)]).1.map PlaneMeta.size) 0 ∧
    (i915_bo_from_format 0 0 4096 [(100, 60), (50, 30)]).2 =
      ALIGN32 (((i915_bo_from_format 0 0 4096
        [(100, 60), (50, 30)]).1.map PlaneMeta.size).sum) 4096 :=
  ⟨(C6_plane_layout_invariant 0 0 4096 [(100, 60), (50, 30)] (by norm_num)
      (by decide) (by norm_num) (by norm_num)).2.2.1,
   (C6_plane_layout_invariant 0 0 4096 [(100, 60), (50, 30)] (by norm_num)
      (by decide) (by norm_num) (by norm_num)).2.2.2⟩

end Minigbm
